import Mathlib

/-!
Verification of the create/update annotation-payload validation pipelines
(module `h.schemas` / file annotation.py of this repository).  Python dicts
are modelled as association lists over a JSON value type; `dict.pop`, key
deletion and key assignment become explicit list operations; Python
exceptions (`ValidationError`, `TypeError`, `KeyError`) become an `Except`
error type.  The two external collaborator functions of the document-claims
module (out of scope per the spec) are passed in as parameters.
-/

/-- A JSON value, as produced by decoding a client payload. -/
inductive Json where
  | null : Json
  | bool : Bool → Json
  | num : Int → Json
  | str : String → Json
  | arr : List Json → Json
  | obj : List (String × Json) → Json
deriving Repr

/-! Structural equality of JSON values, modelling the Python `==` used by
the source to compare the read permission with a list.  Lists compare
pointwise and in order, exactly as Python list equality does. -/
mutual
def Json.beq : Json → Json → Bool
  | .null, .null => true
  | .bool a, .bool b => a == b
  | .num a, .num b => a == b
  | .str a, .str b => a == b
  | .arr as, .arr bs => Json.beqList as bs
  | .obj as, .obj bs => Json.beqPairs as bs
  | _, _ => false

def Json.beqList : List Json → List Json → Bool
  | [], [] => true
  | a :: as, b :: bs => Json.beq a b && Json.beqList as bs
  | _, _ => false

def Json.beqPairs : List (String × Json) → List (String × Json) → Bool
  | [], [] => true
  | (k1, v1) :: as, (k2, v2) :: bs => k1 == k2 && Json.beq v1 v2 && Json.beqPairs as bs
  | _, _ => false
end

mutual
theorem Json.eq_of_beq : ∀ {a b : Json}, Json.beq a b = true → a = b
  | .null, .null, _ => rfl
  | .bool _, .bool _, h => by
      simp only [Json.beq] at h
      exact congrArg Json.bool (by simpa using h)
  | .num _, .num _, h => by
      simp only [Json.beq] at h
      exact congrArg Json.num (by simpa using h)
  | .str _, .str _, h => by
      simp only [Json.beq] at h
      exact congrArg Json.str (by simpa using h)
  | .arr _, .arr _, h => congrArg Json.arr (Json.eqList_of_beq (by simpa [Json.beq] using h))
  | .obj _, .obj _, h => congrArg Json.obj (Json.eqPairs_of_beq (by simpa [Json.beq] using h))

theorem Json.eqList_of_beq : ∀ {as bs : List Json}, Json.beqList as bs = true → as = bs
  | [], [], _ => rfl
  | a :: as, b :: bs, h => by
      simp only [Json.beqList, Bool.and_eq_true] at h
      have h1 : a = b := Json.eq_of_beq h.1
      have h2 : as = bs := Json.eqList_of_beq h.2
      rw [h1, h2]

theorem Json.eqPairs_of_beq :
    ∀ {as bs : List (String × Json)}, Json.beqPairs as bs = true → as = bs
  | [], [], _ => rfl
  | (k1, v1) :: as, (k2, v2) :: bs, h => by
      simp only [Json.beqPairs, Bool.and_eq_true] at h
      have hk : k1 = k2 := by simpa using h.1.1
      have hv : v1 = v2 := Json.eq_of_beq h.1.2
      have ht : as = bs := Json.eqPairs_of_beq h.2
      rw [hk, hv, ht]
end

mutual
theorem Json.beq_refl : ∀ (a : Json), Json.beq a a = true
  | .null => rfl
  | .bool b => by simp [Json.beq]
  | .num n => by simp [Json.beq]
  | .str s => by simp [Json.beq]
  | .arr as => by simpa [Json.beq] using Json.beqList_refl as
  | .obj as => by simpa [Json.beq] using Json.beqPairs_refl as

theorem Json.beqList_refl : ∀ (as : List Json), Json.beqList as as = true
  | [] => rfl
  | a :: as => by simp [Json.beqList, Json.beq_refl a, Json.beqList_refl as]

theorem Json.beqPairs_refl : ∀ (as : List (String × Json)), Json.beqPairs as as = true
  | [] => rfl
  | (k, v) :: as => by simp [Json.beqPairs, Json.beq_refl v, Json.beqPairs_refl as]
end

theorem Json.beq_iff_eq (a b : Json) : Json.beq a b = true ↔ a = b :=
  ⟨Json.eq_of_beq, fun h => h ▸ Json.beq_refl a⟩

instance : DecidableEq Json := fun a b =>
  decidable_of_iff (Json.beq a b = true) (Json.beq_iff_eq a b)

/-- A Python dict with string keys, modelled as an association list
(keys are unique in a Python dict; lookup takes the first binding). -/
abbrev Dict := List (String × Json)

/-- Lookup `d[k]` / `d.get(k)`: the value bound to `k`, if any. -/
def getKey : Dict → String → Option Json
  | [], _ => none
  | (k, v) :: rest, key => if k = key then some v else getKey rest key

/-- Removal of a key, as done by `dict.pop` / `del d[k]`. -/
def eraseKey (d : Dict) (k : String) : Dict :=
  d.filter fun p => decide (p.1 ≠ k)

/-- Sequential removal of several keys. -/
def eraseKeys (ks : List String) (d : Dict) : Dict :=
  ks.foldl eraseKey d

/-- Python `d.pop(k, default)`: the bound value (or the default) together
with the dict with the key removed. -/
def popD (d : Dict) (k : String) (default : Json) : Json × Dict :=
  ((getKey d k).getD default, eraseKey d k)

/-- Python truthiness of a JSON value (`if x:`): empty containers, empty
strings, zero, `False` and `None` are falsy. -/
def truthy : Json → Bool
  | .null => false
  | .bool b => b
  | .num n => n != 0
  | .str s => s != ""
  | .arr xs => !xs.isEmpty
  | .obj fs => !fs.isEmpty

/-- Python `str.strip()` with no argument: removal of leading and trailing
whitespace, computed structurally on the character list so that concrete
instances evaluate. -/
def pyStrip (s : String) : String :=
  String.mk (((s.data.dropWhile Char.isWhitespace).reverse.dropWhile Char.isWhitespace).reverse)

/-- View of a JSON value as a Python `str`. -/
def asStr : Json → Option String
  | .str s => some s
  | _ => none

/-- View of a JSON value as a Python dict. -/
def asObj : Json → Option Dict
  | .obj fs => some fs
  | _ => none

/-- View of a JSON value as a list of dicts (the shape the structural schema
guarantees for the `target` field: an array whose items are objects). -/
def asObjList : Json → Option (List Dict)
  | .arr xs => xs.mapM asObj
  | _ => none

/-- The errors the pipelines can raise: the explicit `ValidationError`, plus
the `TypeError` / `KeyError` a Python run would raise on input that escaped
structural validation (unreachable for validated payloads). -/
inductive PyErr where
  | validationError (msg : String)
  | typeError
  | keyError (key : String)
deriving DecidableEq, Repr

/-- A single-quote character, used to build the error message without an
apostrophe appearing literally in this file. -/
def squote : String := String.singleton (Char.ofNat 39)

/-- The message of the uri-required `ValidationError` raised by both
pipelines: `uri: ` followed by a single-quoted `uri` and
` is a required property`. -/
def uriRequiredMessage : String :=
  "uri: " ++ squote ++ "uri" ++ squote ++ " is a required property"

/-- The server-owned fields stripped by the field sanitizer, in source
order. -/
def protectedFields : List String :=
  ["created", "updated", "user", "id", "links", "flagged", "hidden", "moderation", "user_info"]

/-- The field sanitizer: pops each protected field from the structure
(a no-op for absent keys). -/
def _remove_protected_fields (appstruct : Dict) : Dict :=
  eraseKeys protectedFields appstruct

/-- The permission reduction: true iff `permissions[read]` equals the
one-element list containing `group:` followed by the groupid.  The subscript
raises `KeyError` when `read` is absent (structural validation guarantees
presence). -/
def _shared (permissions : Dict) (groupid : String) : Except PyErr Bool :=
  match getKey permissions "read" with
  | none => Except.error (PyErr.keyError "read")
  | some v => Except.ok (Json.beq v (Json.arr [Json.str ("group:" ++ groupid)]))

/-- The selector extraction: the `selector` field of the first target when
the list is non-empty and the field is present, the empty list otherwise.
Targets beyond the first and other fields of the first target are
discarded. -/
def _target_selectors (targets : List Dict) : Json :=
  match targets with
  | [] => Json.arr []
  | first :: _ =>
    match getKey first "selector" with
    | some sel => sel
    | none => Json.arr []

/-- The two external document-claims collaborator functions (pure, total,
out of scope per the spec), passed in as parameters. -/
structure DocClaims where
  document_uris_from_data : Json → String → Json
  document_metas_from_data : Json → String → Json

/-- A trivial collaborator instance used for concrete evaluations. -/
def emptyDocClaims : DocClaims :=
  ⟨fun _ _ => Json.arr [], fun _ _ => Json.arr []⟩

/-- The document projection: substitutes an empty object for a falsy
document (`document or {}`), then builds the dict of the two collaborator
projections.  The deep copies of the source are identities in this pure
model. -/
def _document (dc : DocClaims) (document : Json) (claimant : String) : Json :=
  let document := if truthy document then document else Json.obj []
  Json.obj
    [("document_uri_dicts", dc.document_uris_from_data document claimant),
     ("document_meta_dicts", dc.document_metas_from_data document claimant)]

/-- The permissions branch of the create pipeline: when `permissions` is
present, reduce it with the groupid value just stored in the output and pop
it; otherwise the shared flag is `False`. -/
def sharedStep (appstruct : Dict) (groupVal : Json) : Except PyErr (Json × Dict) :=
  match getKey appstruct "permissions" with
  | some pv =>
    match pv, groupVal with
    | Json.obj perms, Json.str g =>
      match _shared perms g with
      | Except.ok b => Except.ok (Json.bool b, eraseKey appstruct "permissions")
      | Except.error e => Except.error e
    | _, _ => Except.error PyErr.typeError
  | none => Except.ok (Json.bool false, appstruct)

/-- The target branch of both pipelines: when `target` is present, extract
the selectors of its (object-shaped) items and pop it. -/
def targetStep (appstruct : Dict) : Except PyErr (Option Json × Dict) :=
  match getKey appstruct "target" with
  | some tv =>
    match asObjList tv with
    | some ts => Except.ok (some (_target_selectors ts), eraseKey appstruct "target")
    | none => Except.error PyErr.typeError
  | none => Except.ok (none, appstruct)

/-- Appending of an optional entry to a dict under construction: the key is
bound exactly when the optional value is present. -/
def optEntry (base : Dict) (k : String) : Option Json → Dict
  | some v => base ++ [(k, v)]
  | none => base

/-- Assembly of the create output in source order: the fixed named fields,
then `target_selectors` when a target was supplied, then removal of
`groupid` for replies, then `document` and `extra`. -/
def assembleCreate (userid target_uri : String)
    (textVal tagsVal groupVal refsVal sharedVal : Json)
    (selOpt : Option Json) (docJ : Json) (extra : Dict) : Dict :=
  let base : Dict :=
    [("userid", Json.str userid), ("target_uri", Json.str target_uri), ("text", textVal),
     ("tags", tagsVal), ("groupid", groupVal), ("references", refsVal), ("shared", sharedVal)]
  let base := optEntry base "target_selectors" selOpt
  let base := if truthy refsVal then eraseKey base "groupid" else base
  base ++ [("document", docJ), ("extra", Json.obj extra)]

/-- Continuation of the create pipeline after the uri step: pop `text`,
`tags`, `group`, `references` with their defaults, reduce `permissions`,
extract `target` selectors, drop `groupid` for replies, project `document`,
and collect the residual fields into `extra`. -/
def createCont (dc : DocClaims) (authenticated_userid : String) (uri : String)
    (appstruct : Dict) : Except PyErr Dict :=
  let (textVal, appstruct) := popD appstruct "text" (Json.str "")
  let (tagsVal, appstruct) := popD appstruct "tags" (Json.arr [])
  let (groupVal, appstruct) := popD appstruct "group" (Json.str "__world__")
  let (refsVal, appstruct) := popD appstruct "references" (Json.arr [])
  match sharedStep appstruct groupVal with
  | Except.error e => Except.error e
  | Except.ok (sharedVal, appstruct) =>
    match targetStep appstruct with
    | Except.error e => Except.error e
    | Except.ok (selOpt, appstruct) =>
      let (docVal, appstruct) := popD appstruct "document" (Json.obj [])
      Except.ok (assembleCreate authenticated_userid uri textVal tagsVal groupVal refsVal
        sharedVal selOpt (_document dc docVal uri) appstruct)

/-- The create pipeline (`CreateAnnotationSchema.validate`), applied to a
structurally validated payload: strip protected fields, pop and strip
`uri` (failing when blank), then run the continuation on the remaining
structure. -/
def createValidate (dc : DocClaims) (authenticated_userid : String) (data : Dict) :
    Except PyErr Dict :=
  let appstruct := _remove_protected_fields data
  let (uriVal, appstruct) := popD appstruct "uri" (Json.str "")
  match asStr uriVal with
  | none => Except.error PyErr.typeError
  | some uriRaw =>
    let uri := pyStrip uriRaw
    if uri = "" then Except.error (PyErr.validationError uriRequiredMessage)
    else createCont dc authenticated_userid uri appstruct

/-- The uri branch of the update pipeline: `uri` is optional, but when
present it is popped, trimmed and must be non-blank. -/
def updateUriStep (appstruct : Dict) : Except PyErr (Option String × Dict) :=
  match getKey appstruct "uri" with
  | some v =>
    match asStr v with
    | some s =>
      if pyStrip s = "" then Except.error (PyErr.validationError uriRequiredMessage)
      else Except.ok (some (pyStrip s), eraseKey appstruct "uri")
    | none => Except.error PyErr.typeError
  | none => Except.ok (none, appstruct)

/-- The permissions branch of the update pipeline: the reduction uses the
caller-supplied current groupid, and `shared` is produced only when
`permissions` was supplied. -/
def updateSharedStep (appstruct : Dict) (groupid : String) :
    Except PyErr (Option Json × Dict) :=
  match getKey appstruct "permissions" with
  | some pv =>
    match pv with
    | Json.obj perms =>
      match _shared perms groupid with
      | Except.ok b => Except.ok (some (Json.bool b), eraseKey appstruct "permissions")
      | Except.error e => Except.error e
    | _ => Except.error PyErr.typeError
  | none => Except.ok (none, appstruct)

/-- The fields an update request may not change; they are popped from the
structure before any other processing. -/
def immutableFields : List String := ["group", "groupid", "userid", "references"]

/-- Assembly of the update output in source order: each named field is
present only when the corresponding input field was supplied; the document
claimant is the new target uri when one was set, the existing one
otherwise. -/
def assembleUpd (dc : DocClaims) (existing_target_uri : String) (newUriOpt : Option String)
    (sharedOpt selOpt textOpt tagsOpt docOpt : Option Json) (extra : Dict) : Dict :=
  let base : Dict := []
  let base := optEntry base "target_uri" (newUriOpt.map Json.str)
  let base := optEntry base "shared" sharedOpt
  let base := optEntry base "target_selectors" selOpt
  let base := optEntry base "text" textOpt
  let base := optEntry base "tags" tagsOpt
  let base := optEntry base "document"
    (docOpt.map fun dv => _document dc dv (newUriOpt.getD existing_target_uri))
  base ++ [("extra", Json.obj extra)]

/-- The update pipeline after the immutable fields have been popped. -/
def updateCore (dc : DocClaims) (existing_target_uri : String) (groupid : String)
    (appstruct : Dict) : Except PyErr Dict :=
  match updateUriStep appstruct with
  | Except.error e => Except.error e
  | Except.ok (newUriOpt, appstruct) =>
    match updateSharedStep appstruct groupid with
    | Except.error e => Except.error e
    | Except.ok (sharedOpt, appstruct) =>
      match targetStep appstruct with
      | Except.error e => Except.error e
      | Except.ok (selOpt, appstruct) =>
        let (textOpt, appstruct) := (getKey appstruct "text", eraseKey appstruct "text")
        let (tagsOpt, appstruct) := (getKey appstruct "tags", eraseKey appstruct "tags")
        let (docOpt, appstruct) := (getKey appstruct "document", eraseKey appstruct "document")
        Except.ok (assembleUpd dc existing_target_uri newUriOpt sharedOpt selOpt textOpt
          tagsOpt docOpt appstruct)

/-- The update pipeline (`UpdateAnnotationSchema.validate`), applied to a
structurally validated payload: strip protected fields, discard the
immutable fields, then run the per-field steps and collect the residual
fields into `extra`. -/
def updateValidate (dc : DocClaims) (existing_target_uri : String) (groupid : String)
    (data : Dict) : Except PyErr Dict :=
  updateCore dc existing_target_uri groupid
    (eraseKeys immutableFields (_remove_protected_fields data))

/-- Check that an optional value, when present, is a JSON string. -/
def isOptStr : Option Json → Bool
  | none => true
  | some (Json.str _) => true
  | some _ => false

/-- The part of the structural annotation schema the pipelines rely on:
`uri` and `group` are strings when present, `permissions` is an object that
contains `read`, and `target` is an array of objects.  Every payload
accepted by the structural validator satisfies this. -/
def validStruct (d : Dict) : Bool :=
  isOptStr (getKey d "uri") && isOptStr (getKey d "group") &&
  (match getKey d "permissions" with
   | none => true
   | some (Json.obj p) => (getKey p "read").isSome
   | some _ => false) &&
  (match getKey d "target" with
   | none => true
   | some v => (asObjList v).isSome)

/-! Lemmas about dict lookup and key removal. -/

@[simp] theorem getKey_nil (k : String) : getKey [] k = none := rfl

@[simp] theorem getKey_cons (k key : String) (v : Json) (rest : Dict) :
    getKey ((k, v) :: rest) key = if k = key then some v else getKey rest key := rfl

@[simp] theorem eraseKey_nil (k : String) : eraseKey [] k = [] := rfl

@[simp] theorem eraseKey_cons (k key : String) (v : Json) (rest : Dict) :
    eraseKey ((k, v) :: rest) key =
      if k = key then eraseKey rest key else (k, v) :: eraseKey rest key := by
  by_cases h : k = key <;> simp [eraseKey, List.filter_cons, h]

@[simp] theorem getKey_eraseKey (d : Dict) (k key : String) :
    getKey (eraseKey d k) key = if key = k then none else getKey d key := by
  induction d with
  | nil => simp
  | cons p rest ih =>
      obtain ⟨k1, v⟩ := p
      by_cases h1 : k1 = k <;> by_cases h2 : key = k <;> by_cases h3 : k1 = key <;>
        simp [h1, h2, h3, ih] <;> simp_all

@[simp] theorem getKey_eraseKeys (ks : List String) (d : Dict) (key : String) :
    getKey (eraseKeys ks d) key = if key ∈ ks then none else getKey d key := by
  induction ks generalizing d with
  | nil => simp [eraseKeys]
  | cons a ks ih =>
      show getKey (eraseKeys ks (eraseKey d a)) key = _
      rw [ih, getKey_eraseKey]
      by_cases h1 : key ∈ ks <;> by_cases h2 : key = a <;> simp [h1, h2]

theorem eraseKey_eq_self (d : Dict) (k : String) (h : getKey d k = none) :
    eraseKey d k = d := by
  induction d with
  | nil => rfl
  | cons p rest ih =>
      obtain ⟨k1, v⟩ := p
      by_cases h1 : k1 = k
      · simp [h1] at h
      · simp [h1] at h ⊢
        exact ih h

theorem eraseKey_comm (d : Dict) (a b : String) :
    eraseKey (eraseKey d a) b = eraseKey (eraseKey d b) a := by
  simp only [eraseKey, List.filter_filter]
  exact List.filter_congr fun p _ => Bool.and_comm _ _

theorem eraseKey_idem (d : Dict) (k : String) :
    eraseKey (eraseKey d k) k = eraseKey d k :=
  eraseKey_eq_self _ _ (by simp)

theorem eraseKeys_eraseKey_comm (ks : List String) (d : Dict) (k : String) :
    eraseKeys ks (eraseKey d k) = eraseKey (eraseKeys ks d) k := by
  induction ks generalizing d with
  | nil => rfl
  | cons a ks ih =>
      show eraseKeys ks (eraseKey (eraseKey d k) a) = eraseKey (eraseKeys ks (eraseKey d a)) k
      rw [eraseKey_comm d k a, ih]

theorem eraseKeys_eraseKey_of_mem (ks : List String) (d : Dict) (k : String) (h : k ∈ ks) :
    eraseKeys ks (eraseKey d k) = eraseKeys ks d := by
  induction ks generalizing d with
  | nil => cases h
  | cons a ks ih =>
      rcases List.mem_cons.1 h with h1 | h1
      · subst h1
        show eraseKeys ks (eraseKey (eraseKey d k) k) = eraseKeys ks (eraseKey d k)
        rw [eraseKey_idem]
      · show eraseKeys ks (eraseKey (eraseKey d k) a) = eraseKeys ks (eraseKey d a)
        rw [eraseKey_comm d k a, ih _ h1]

theorem eraseKeys_append (ks1 ks2 : List String) (d : Dict) :
    eraseKeys (ks1 ++ ks2) d = eraseKeys ks2 (eraseKeys ks1 d) := by
  simp [eraseKeys, List.foldl_append]

theorem getKey_append (d1 d2 : Dict) (k : String) :
    getKey (d1 ++ d2) k = (getKey d1 k).elim (getKey d2 k) some := by
  induction d1 with
  | nil => simp
  | cons p rest ih =>
      obtain ⟨k1, v⟩ := p
      by_cases h : k1 = k <;> simp [h, ih]

theorem getKey_optEntry_ne (base : Dict) (k key : String) (o : Option Json) (h : key ≠ k) :
    getKey (optEntry base k o) key = getKey base key := by
  cases o with
  | none => rfl
  | some v =>
      simp [optEntry, getKey_append, Ne.symm h]
      cases getKey base key <;> rfl

theorem getKey_optEntry_self (base : Dict) (k : String) (o : Option Json)
    (h : getKey base k = none) : getKey (optEntry base k o) k = o := by
  cases o with
  | none => simpa [optEntry] using h
  | some v => simp [optEntry, getKey_append, h]

/-! Derived views of the input payload used to state what the pipelines
produce. -/

/-- The popped `text` value with its create default. -/
def textD (d : Dict) : Json := (getKey d "text").getD (Json.str "")

/-- The popped `tags` value with its create default. -/
def tagsD (d : Dict) : Json := (getKey d "tags").getD (Json.arr [])

/-- The popped `group` value with its create default. -/
def groupD (d : Dict) : Json := (getKey d "group").getD (Json.str "__world__")

/-- The popped `references` value with its create default. -/
def refsD (d : Dict) : Json := (getKey d "references").getD (Json.arr [])

/-- The popped `document` value with its create default. -/
def docD (d : Dict) : Json := (getKey d "document").getD (Json.obj [])

/-- Every key the create pipeline consumes (protected fields plus the named
input fields), in pop order. -/
def createConsumed : List String :=
  protectedFields ++ ["uri", "text", "tags", "group", "references", "permissions", "target", "document"]

/-- The residual fields of a create payload: whatever the pipeline does not
consume ends up in `extra`. -/
def createResidual (d : Dict) : Dict := eraseKeys createConsumed d

/-- Every key the update pipeline consumes (protected fields, immutable
fields, plus the named input fields), in pop order. -/
def updConsumed : List String :=
  protectedFields ++ immutableFields ++ ["uri", "permissions", "target", "text", "tags", "document"]

/-- The residual fields of an update payload. -/
def updResidual (d : Dict) : Dict := eraseKeys updConsumed d

/-- Relation between a create payload and the `shared` value of the output:
`False` when `permissions` is absent, the permission reduction at the
(string) group value otherwise. -/
def sharedRel (d : Dict) (sharedVal : Json) : Prop :=
  match getKey d "permissions" with
  | none => sharedVal = Json.bool false
  | some pv => ∃ perms g b, pv = Json.obj perms ∧ groupD d = Json.str g ∧
      _shared perms g = Except.ok b ∧ sharedVal = Json.bool b

/-- Relation between a payload and the optional `target_selectors` value of
the output. -/
def selRel (d : Dict) (selOpt : Option Json) : Prop :=
  match getKey d "target" with
  | none => selOpt = none
  | some tv => ∃ ts, asObjList tv = some ts ∧ selOpt = some (_target_selectors ts)

/-- Relation between an update payload and the optional new target uri. -/
def uriRelU (d : Dict) (uOpt : Option String) : Prop :=
  match getKey d "uri" with
  | none => uOpt = none
  | some v => ∃ s, v = Json.str s ∧ pyStrip s ≠ "" ∧ uOpt = some (pyStrip s)

/-- Relation between an update payload and the optional `shared` value of
the output (the reduction uses the caller-supplied groupid). -/
def sharedRelU (d : Dict) (gid : String) (shOpt : Option Json) : Prop :=
  match getKey d "permissions" with
  | none => shOpt = none
  | some pv => ∃ perms b, pv = Json.obj perms ∧ _shared perms gid = Except.ok b ∧
      shOpt = some (Json.bool b)

/-! Lookup lemmas for the assembled create output. -/

theorem aC_userid (uid uri : String) (textVal tagsVal groupVal refsVal sharedVal : Json)
    (selOpt : Option Json) (docJ : Json) (ex : Dict) :
    getKey (assembleCreate uid uri textVal tagsVal groupVal refsVal sharedVal selOpt docJ ex)
      "userid" = some (Json.str uid) := by
  cases selOpt <;> by_cases h : truthy refsVal <;> simp [assembleCreate, optEntry, h]

theorem aC_target_uri (uid uri : String) (textVal tagsVal groupVal refsVal sharedVal : Json)
    (selOpt : Option Json) (docJ : Json) (ex : Dict) :
    getKey (assembleCreate uid uri textVal tagsVal groupVal refsVal sharedVal selOpt docJ ex)
      "target_uri" = some (Json.str uri) := by
  cases selOpt <;> by_cases h : truthy refsVal <;> simp [assembleCreate, optEntry, h]

theorem aC_text (uid uri : String) (textVal tagsVal groupVal refsVal sharedVal : Json)
    (selOpt : Option Json) (docJ : Json) (ex : Dict) :
    getKey (assembleCreate uid uri textVal tagsVal groupVal refsVal sharedVal selOpt docJ ex)
      "text" = some textVal := by
  cases selOpt <;> by_cases h : truthy refsVal <;> simp [assembleCreate, optEntry, h]

theorem aC_tags (uid uri : String) (textVal tagsVal groupVal refsVal sharedVal : Json)
    (selOpt : Option Json) (docJ : Json) (ex : Dict) :
    getKey (assembleCreate uid uri textVal tagsVal groupVal refsVal sharedVal selOpt docJ ex)
      "tags" = some tagsVal := by
  cases selOpt <;> by_cases h : truthy refsVal <;> simp [assembleCreate, optEntry, h]

theorem aC_groupid (uid uri : String) (textVal tagsVal groupVal refsVal sharedVal : Json)
    (selOpt : Option Json) (docJ : Json) (ex : Dict) :
    getKey (assembleCreate uid uri textVal tagsVal groupVal refsVal sharedVal selOpt docJ ex)
      "groupid" = if truthy refsVal then none else some groupVal := by
  cases selOpt <;> by_cases h : truthy refsVal <;> simp [assembleCreate, optEntry, h]

theorem aC_references (uid uri : String) (textVal tagsVal groupVal refsVal sharedVal : Json)
    (selOpt : Option Json) (docJ : Json) (ex : Dict) :
    getKey (assembleCreate uid uri textVal tagsVal groupVal refsVal sharedVal selOpt docJ ex)
      "references" = some refsVal := by
  cases selOpt <;> by_cases h : truthy refsVal <;> simp [assembleCreate, optEntry, h]

theorem aC_shared (uid uri : String) (textVal tagsVal groupVal refsVal sharedVal : Json)
    (selOpt : Option Json) (docJ : Json) (ex : Dict) :
    getKey (assembleCreate uid uri textVal tagsVal groupVal refsVal sharedVal selOpt docJ ex)
      "shared" = some sharedVal := by
  cases selOpt <;> by_cases h : truthy refsVal <;> simp [assembleCreate, optEntry, h]

theorem aC_selectors (uid uri : String) (textVal tagsVal groupVal refsVal sharedVal : Json)
    (selOpt : Option Json) (docJ : Json) (ex : Dict) :
    getKey (assembleCreate uid uri textVal tagsVal groupVal refsVal sharedVal selOpt docJ ex)
      "target_selectors" = selOpt := by
  cases selOpt <;> by_cases h : truthy refsVal <;> simp [assembleCreate, optEntry, h]

theorem aC_document (uid uri : String) (textVal tagsVal groupVal refsVal sharedVal : Json)
    (selOpt : Option Json) (docJ : Json) (ex : Dict) :
    getKey (assembleCreate uid uri textVal tagsVal groupVal refsVal sharedVal selOpt docJ ex)
      "document" = some docJ := by
  cases selOpt <;> by_cases h : truthy refsVal <;> simp [assembleCreate, optEntry, h]

theorem aC_extra (uid uri : String) (textVal tagsVal groupVal refsVal sharedVal : Json)
    (selOpt : Option Json) (docJ : Json) (ex : Dict) :
    getKey (assembleCreate uid uri textVal tagsVal groupVal refsVal sharedVal selOpt docJ ex)
      "extra" = some (Json.obj ex) := by
  cases selOpt <;> by_cases h : truthy refsVal <;> simp [assembleCreate, optEntry, h]

/-- Any key that is not one of the named create output fields is absent
from the assembled create output. -/
theorem aC_other (uid uri : String) (textVal tagsVal groupVal refsVal sharedVal : Json)
    (selOpt : Option Json) (docJ : Json) (ex : Dict) (k : String)
    (h1 : k ≠ "userid") (h2 : k ≠ "target_uri") (h3 : k ≠ "text") (h4 : k ≠ "tags")
    (h5 : k ≠ "groupid") (h6 : k ≠ "references") (h7 : k ≠ "shared")
    (h8 : k ≠ "target_selectors") (h9 : k ≠ "document") (h10 : k ≠ "extra") :
    getKey (assembleCreate uid uri textVal tagsVal groupVal refsVal sharedVal selOpt docJ ex)
      k = none := by
  cases selOpt <;> by_cases h : truthy refsVal <;>
    simp [assembleCreate, optEntry, h, Ne.symm h1, Ne.symm h2, Ne.symm h3, Ne.symm h4,
      Ne.symm h5, Ne.symm h6, Ne.symm h7, Ne.symm h8, Ne.symm h9, Ne.symm h10]

/-! Lookup lemmas for the assembled update output. -/

theorem aU_target_uri (dc : DocClaims) (etu : String) (newUriOpt : Option String)
    (sharedOpt selOpt textOpt tagsOpt docOpt : Option Json) (ex : Dict) :
    getKey (assembleUpd dc etu newUriOpt sharedOpt selOpt textOpt tagsOpt docOpt ex)
      "target_uri" = newUriOpt.map Json.str := by
  cases newUriOpt <;> cases sharedOpt <;> cases selOpt <;> cases textOpt <;> cases tagsOpt <;>
    cases docOpt <;> simp [assembleUpd, optEntry]

theorem aU_shared (dc : DocClaims) (etu : String) (newUriOpt : Option String)
    (sharedOpt selOpt textOpt tagsOpt docOpt : Option Json) (ex : Dict) :
    getKey (assembleUpd dc etu newUriOpt sharedOpt selOpt textOpt tagsOpt docOpt ex)
      "shared" = sharedOpt := by
  cases newUriOpt <;> cases sharedOpt <;> cases selOpt <;> cases textOpt <;> cases tagsOpt <;>
    cases docOpt <;> simp [assembleUpd, optEntry]

theorem aU_selectors (dc : DocClaims) (etu : String) (newUriOpt : Option String)
    (sharedOpt selOpt textOpt tagsOpt docOpt : Option Json) (ex : Dict) :
    getKey (assembleUpd dc etu newUriOpt sharedOpt selOpt textOpt tagsOpt docOpt ex)
      "target_selectors" = selOpt := by
  cases newUriOpt <;> cases sharedOpt <;> cases selOpt <;> cases textOpt <;> cases tagsOpt <;>
    cases docOpt <;> simp [assembleUpd, optEntry]

theorem aU_text (dc : DocClaims) (etu : String) (newUriOpt : Option String)
    (sharedOpt selOpt textOpt tagsOpt docOpt : Option Json) (ex : Dict) :
    getKey (assembleUpd dc etu newUriOpt sharedOpt selOpt textOpt tagsOpt docOpt ex)
      "text" = textOpt := by
  cases newUriOpt <;> cases sharedOpt <;> cases selOpt <;> cases textOpt <;> cases tagsOpt <;>
    cases docOpt <;> simp [assembleUpd, optEntry]

theorem aU_tags (dc : DocClaims) (etu : String) (newUriOpt : Option String)
    (sharedOpt selOpt textOpt tagsOpt docOpt : Option Json) (ex : Dict) :
    getKey (assembleUpd dc etu newUriOpt sharedOpt selOpt textOpt tagsOpt docOpt ex)
      "tags" = tagsOpt := by
  cases newUriOpt <;> cases sharedOpt <;> cases selOpt <;> cases textOpt <;> cases tagsOpt <;>
    cases docOpt <;> simp [assembleUpd, optEntry]

theorem aU_document (dc : DocClaims) (etu : String) (newUriOpt : Option String)
    (sharedOpt selOpt textOpt tagsOpt docOpt : Option Json) (ex : Dict) :
    getKey (assembleUpd dc etu newUriOpt sharedOpt selOpt textOpt tagsOpt docOpt ex)
      "document" =
        docOpt.map fun dv => _document dc dv (newUriOpt.getD etu) := by
  cases newUriOpt <;> cases sharedOpt <;> cases selOpt <;> cases textOpt <;> cases tagsOpt <;>
    cases docOpt <;> simp [assembleUpd, optEntry]

theorem aU_extra (dc : DocClaims) (etu : String) (newUriOpt : Option String)
    (sharedOpt selOpt textOpt tagsOpt docOpt : Option Json) (ex : Dict) :
    getKey (assembleUpd dc etu newUriOpt sharedOpt selOpt textOpt tagsOpt docOpt ex)
      "extra" = some (Json.obj ex) := by
  cases newUriOpt <;> cases sharedOpt <;> cases selOpt <;> cases textOpt <;> cases tagsOpt <;>
    cases docOpt <;> simp [assembleUpd, optEntry]

/-- Any key that is not one of the named update output fields is absent
from the assembled update output. -/
theorem aU_other (dc : DocClaims) (etu : String) (newUriOpt : Option String)
    (sharedOpt selOpt textOpt tagsOpt docOpt : Option Json) (ex : Dict) (k : String)
    (h1 : k ≠ "target_uri") (h2 : k ≠ "shared") (h3 : k ≠ "target_selectors")
    (h4 : k ≠ "text") (h5 : k ≠ "tags") (h6 : k ≠ "document") (h7 : k ≠ "extra") :
    getKey (assembleUpd dc etu newUriOpt sharedOpt selOpt textOpt tagsOpt docOpt ex)
      k = none := by
  cases newUriOpt <;> cases sharedOpt <;> cases selOpt <;> cases textOpt <;> cases tagsOpt <;>
    cases docOpt <;>
    simp [assembleUpd, optEntry, Ne.symm h1, Ne.symm h2, Ne.symm h3, Ne.symm h4,
      Ne.symm h5, Ne.symm h6, Ne.symm h7]

/-! Evaluation lemmas for the per-field pipeline steps. -/

theorem sharedStep_absent (a : Dict) (gv : Json) (h : getKey a "permissions" = none) :
    sharedStep a gv = Except.ok (Json.bool false, a) := by
  simp [sharedStep, h]

theorem sharedStep_ok (a : Dict) (perms : Dict) (g : String) (b : Bool)
    (h : getKey a "permissions" = some (Json.obj perms)) (hb : _shared perms g = Except.ok b) :
    sharedStep a (Json.str g) = Except.ok (Json.bool b, eraseKey a "permissions") := by
  simp [sharedStep, h, hb]

theorem sharedStep_err_perm (a : Dict) (gv pv : Json)
    (h : getKey a "permissions" = some pv) (hpv : asObj pv = none) :
    sharedStep a gv = Except.error PyErr.typeError := by
  cases pv <;> cases gv <;> simp_all [sharedStep, asObj]

theorem sharedStep_err_group (a : Dict) (perms : Dict) (gv : Json)
    (h : getKey a "permissions" = some (Json.obj perms)) (hgv : asStr gv = none) :
    sharedStep a gv = Except.error PyErr.typeError := by
  cases gv <;> simp_all [sharedStep, asStr]

theorem sharedStep_err_read (a : Dict) (perms : Dict) (g : String)
    (h : getKey a "permissions" = some (Json.obj perms))
    (hread : getKey perms "read" = none) :
    sharedStep a (Json.str g) = Except.error (PyErr.keyError "read") := by
  simp [sharedStep, h, _shared, hread]

theorem targetStep_absent (a : Dict) (h : getKey a "target" = none) :
    targetStep a = Except.ok (none, a) := by
  simp [targetStep, h]

theorem targetStep_ok (a : Dict) (tv : Json) (ts : List Dict)
    (h : getKey a "target" = some tv) (hts : asObjList tv = some ts) :
    targetStep a = Except.ok (some (_target_selectors ts), eraseKey a "target") := by
  simp [targetStep, h, hts]

theorem targetStep_err (a : Dict) (tv : Json)
    (h : getKey a "target" = some tv) (hts : asObjList tv = none) :
    targetStep a = Except.error PyErr.typeError := by
  simp [targetStep, h, hts]

theorem updateUriStep_absent (a : Dict) (h : getKey a "uri" = none) :
    updateUriStep a = Except.ok (none, a) := by
  simp [updateUriStep, h]

theorem updateUriStep_ok (a : Dict) (s : String)
    (h : getKey a "uri" = some (Json.str s)) (hs : pyStrip s ≠ "") :
    updateUriStep a = Except.ok (some (pyStrip s), eraseKey a "uri") := by
  simp [updateUriStep, h, asStr, hs]

theorem updateUriStep_blank (a : Dict) (s : String)
    (h : getKey a "uri" = some (Json.str s)) (hs : pyStrip s = "") :
    updateUriStep a = Except.error (PyErr.validationError uriRequiredMessage) := by
  simp [updateUriStep, h, asStr, hs]

theorem updateUriStep_err_type (a : Dict) (v : Json)
    (h : getKey a "uri" = some v) (hv : asStr v = none) :
    updateUriStep a = Except.error PyErr.typeError := by
  cases v <;> simp_all [updateUriStep, asStr]

theorem updateSharedStep_absent (a : Dict) (gid : String)
    (h : getKey a "permissions" = none) :
    updateSharedStep a gid = Except.ok (none, a) := by
  simp [updateSharedStep, h]

theorem updateSharedStep_ok (a : Dict) (gid : String) (perms : Dict) (b : Bool)
    (h : getKey a "permissions" = some (Json.obj perms))
    (hb : _shared perms gid = Except.ok b) :
    updateSharedStep a gid = Except.ok (some (Json.bool b), eraseKey a "permissions") := by
  simp [updateSharedStep, h, hb]

theorem updateSharedStep_err_perm (a : Dict) (gid : String) (pv : Json)
    (h : getKey a "permissions" = some pv) (hpv : asObj pv = none) :
    updateSharedStep a gid = Except.error PyErr.typeError := by
  cases pv <;> simp_all [updateSharedStep, asObj]

theorem updateSharedStep_err_read (a : Dict) (gid : String) (perms : Dict)
    (h : getKey a "permissions" = some (Json.obj perms))
    (hread : getKey perms "read" = none) :
    updateSharedStep a gid = Except.error (PyErr.keyError "read") := by
  simp [updateSharedStep, h, _shared, hread]

@[simp] theorem pyStrip_empty : pyStrip "" = "" := rfl

/-! Evaluation lemmas for the create pipeline. -/

theorem create_err_no_uri (dc : DocClaims) (uid : String) (d : Dict)
    (h : getKey d "uri" = none) :
    createValidate dc uid d = Except.error (PyErr.validationError uriRequiredMessage) := by
  simp [createValidate, popD, _remove_protected_fields, protectedFields, h, asStr]

theorem create_err_blank (dc : DocClaims) (uid : String) (d : Dict) (s : String)
    (h : getKey d "uri" = some (Json.str s)) (hs : pyStrip s = "") :
    createValidate dc uid d = Except.error (PyErr.validationError uriRequiredMessage) := by
  simp [createValidate, popD, _remove_protected_fields, protectedFields, h, asStr, hs]

theorem create_err_uri_type (dc : DocClaims) (uid : String) (d : Dict) (v : Json)
    (h : getKey d "uri" = some v) (hv : asStr v = none) :
    createValidate dc uid d = Except.error PyErr.typeError := by
  cases v <;> simp_all [createValidate, popD, _remove_protected_fields, protectedFields, asStr]

theorem createCont_eval (dc : DocClaims) (uid uri : String) (a : Dict)
    (sharedVal : Json) (selOpt : Option Json)
    (hsh : sharedRel a sharedVal) (hsel : selRel a selOpt) :
    createCont dc uid uri a = Except.ok (assembleCreate uid uri (textD a) (tagsD a)
      (groupD a) (refsD a) sharedVal selOpt (_document dc (docD a) uri)
      (eraseKeys ["text", "tags", "group", "references", "permissions", "target", "document"]
        a)) := by
  rcases hperm : getKey a "permissions" with _ | pv <;>
    rcases htv : getKey a "target" with _ | tv <;>
    simp only [sharedRel, selRel, hperm, htv] at hsh hsel
  · subst hsh; subst hsel
    simp [createCont, popD, sharedStep, targetStep, hperm, htv, textD, tagsD, groupD,
      refsD, docD, eraseKeys, eraseKey_eq_self]
  · obtain ⟨ts, hts, rfl⟩ := hsel
    subst hsh
    simp [createCont, popD, sharedStep, targetStep, hperm, htv, hts, textD, tagsD, groupD,
      refsD, docD, eraseKeys, eraseKey_eq_self]
  · obtain ⟨perms, g, b, rfl, hg, hb, rfl⟩ := hsh
    subst hsel
    simp only [groupD] at hg
    simp [createCont, popD, sharedStep, targetStep, hperm, htv, hg, hb, textD, tagsD, groupD,
      refsD, docD, eraseKeys, eraseKey_eq_self]
  · obtain ⟨perms, g, b, rfl, hg, hb, rfl⟩ := hsh
    obtain ⟨ts, hts, rfl⟩ := hsel
    simp only [groupD] at hg
    simp [createCont, popD, sharedStep, targetStep, hperm, htv, hg, hb, hts, textD, tagsD,
      groupD, refsD, docD, eraseKeys, eraseKey_eq_self]

theorem getKey_stripUri (d : Dict) (k : String) (h1 : k ∉ protectedFields) (h2 : k ≠ "uri") :
    getKey (eraseKey (_remove_protected_fields d) "uri") k = getKey d k := by
  simp [_remove_protected_fields, h1, h2]

theorem createValidate_uri_ok (dc : DocClaims) (uid : String) (d : Dict) (s : String)
    (huri : getKey d "uri" = some (Json.str s)) (hs : pyStrip s ≠ "") :
    createValidate dc uid d =
      createCont dc uid (pyStrip s) (eraseKey (_remove_protected_fields d) "uri") := by
  simp [createValidate, popD, _remove_protected_fields, protectedFields, huri, asStr, hs]

theorem create_residual_eq (d : Dict) :
    eraseKeys ["text", "tags", "group", "references", "permissions", "target", "document"]
      (eraseKey (_remove_protected_fields d) "uri") = createResidual d := by
  simp [createResidual, createConsumed, _remove_protected_fields, protectedFields, eraseKeys]

theorem sharedRel_stripUri (d : Dict) (sharedVal : Json) (h : sharedRel d sharedVal) :
    sharedRel (eraseKey (_remove_protected_fields d) "uri") sharedVal := by
  have t1 := getKey_stripUri d "permissions" (by decide) (by decide)
  have t2 := getKey_stripUri d "group" (by decide) (by decide)
  simp only [sharedRel, groupD, t1, t2] at h ⊢
  exact h

theorem selRel_stripUri (d : Dict) (selOpt : Option Json) (h : selRel d selOpt) :
    selRel (eraseKey (_remove_protected_fields d) "uri") selOpt := by
  have t1 := getKey_stripUri d "target" (by decide) (by decide)
  simp only [selRel, t1]
  exact h

/-- Master success lemma for the create pipeline: with a present, non-blank
uri and resolved shared / selector values, it produces exactly the
assembled output. -/
theorem create_ok (dc : DocClaims) (uid : String) (d : Dict) (s : String)
    (sharedVal : Json) (selOpt : Option Json)
    (huri : getKey d "uri" = some (Json.str s)) (hs : pyStrip s ≠ "")
    (hsh : sharedRel d sharedVal) (hsel : selRel d selOpt) :
    createValidate dc uid d = Except.ok (assembleCreate uid (pyStrip s) (textD d) (tagsD d)
      (groupD d) (refsD d) sharedVal selOpt (_document dc (docD d) (pyStrip s))
      (createResidual d)) := by
  rw [createValidate_uri_ok dc uid d s huri hs]
  rw [createCont_eval dc uid (pyStrip s) _ sharedVal selOpt (sharedRel_stripUri d _ hsh)
    (selRel_stripUri d _ hsel)]
  have t1 := getKey_stripUri d "text" (by decide) (by decide)
  have t2 := getKey_stripUri d "tags" (by decide) (by decide)
  have t3 := getKey_stripUri d "group" (by decide) (by decide)
  have t4 := getKey_stripUri d "references" (by decide) (by decide)
  have t5 := getKey_stripUri d "document" (by decide) (by decide)
  simp only [textD, tagsD, groupD, refsD, docD, t1, t2, t3, t4, t5, create_residual_eq]

theorem createCont_err_perm (dc : DocClaims) (uid uri : String) (a : Dict) (pv : Json)
    (hperm : getKey a "permissions" = some pv) (hpv : asObj pv = none) :
    createCont dc uid uri a = Except.error PyErr.typeError := by
  cases pv <;> simp_all [createCont, popD, sharedStep, asObj]

theorem createCont_err_group (dc : DocClaims) (uid uri : String) (a : Dict) (perms : Dict)
    (hperm : getKey a "permissions" = some (Json.obj perms))
    (hgv : asStr (groupD a) = none) :
    createCont dc uid uri a = Except.error PyErr.typeError := by
  rcases hga : getKey a "group" with _ | gv
  · simp [groupD, hga, asStr] at hgv
  · simp only [groupD, hga, Option.getD_some] at hgv
    cases gv <;> simp_all [createCont, popD, sharedStep, asStr, groupD]

theorem createCont_err_read (dc : DocClaims) (uid uri : String) (a : Dict) (perms : Dict)
    (g : String) (hperm : getKey a "permissions" = some (Json.obj perms))
    (hg : groupD a = Json.str g) (hread : getKey perms "read" = none) :
    createCont dc uid uri a = Except.error (PyErr.keyError "read") := by
  simp only [groupD] at hg
  simp [createCont, popD, sharedStep, hperm, hg, _shared, hread]

theorem createCont_err_target (dc : DocClaims) (uid uri : String) (a : Dict)
    (sharedVal tv : Json) (hsh : sharedRel a sharedVal)
    (htv : getKey a "target" = some tv) (hts : asObjList tv = none) :
    createCont dc uid uri a = Except.error PyErr.typeError := by
  rcases hperm : getKey a "permissions" with _ | pv <;>
    simp only [sharedRel, hperm] at hsh
  · simp [createCont, popD, sharedStep, targetStep, hperm, htv, hts]
  · obtain ⟨perms, g, b, rfl, hg, hb, rfl⟩ := hsh
    simp only [groupD] at hg
    simp [createCont, popD, sharedStep, targetStep, hperm, htv, hts, hg, hb]

/-- Master inversion lemma for the create pipeline: a successful run
determines the input uri and the shape of the output completely. -/
theorem create_ok_elim (dc : DocClaims) (uid : String) (d : Dict) (out : Dict)
    (hok : createValidate dc uid d = Except.ok out) :
    ∃ s sharedVal selOpt, getKey d "uri" = some (Json.str s) ∧ pyStrip s ≠ "" ∧
      sharedRel d sharedVal ∧ selRel d selOpt ∧
      out = assembleCreate uid (pyStrip s) (textD d) (tagsD d) (groupD d) (refsD d)
        sharedVal selOpt (_document dc (docD d) (pyStrip s)) (createResidual d) := by
  rcases huri : getKey d "uri" with _ | uv
  · rw [create_err_no_uri dc uid d huri] at hok; cases hok
  rcases hv : asStr uv with _ | s
  · rw [create_err_uri_type dc uid d uv huri hv] at hok; cases hok
  have huv : uv = Json.str s := by cases uv <;> simp_all [asStr]
  subst huv
  by_cases hs : pyStrip s = ""
  · rw [create_err_blank dc uid d s huri hs] at hok; cases hok
  rw [createValidate_uri_ok dc uid d s huri hs] at hok
  have tperm := getKey_stripUri d "permissions" (by decide) (by decide)
  have tgroup := getKey_stripUri d "group" (by decide) (by decide)
  have ttarget := getKey_stripUri d "target" (by decide) (by decide)
  -- resolve the shared value
  have hshx : ∃ sharedVal, sharedRel d sharedVal := by
    rcases hperm : getKey d "permissions" with _ | pv
    · exact ⟨Json.bool false, by simp [sharedRel, hperm]⟩
    rcases hpv : asObj pv with _ | perms
    · exfalso
      rw [createCont_err_perm dc uid (pyStrip s) _ pv (tperm.trans hperm) hpv] at hok
      cases hok
    have hpvo : pv = Json.obj perms := by cases pv <;> simp_all [asObj]
    subst hpvo
    rcases hgv : asStr (groupD d) with _ | g
    · exfalso
      have hgv2 : asStr (groupD (eraseKey (_remove_protected_fields d) "uri")) = none := by
        simpa [groupD, tgroup] using hgv
      rw [createCont_err_group dc uid (pyStrip s) _ perms (tperm.trans hperm) hgv2] at hok
      cases hok
    have hg : groupD d = Json.str g := by
      cases hgd : groupD d <;> simp_all [asStr]
    rcases hread : getKey perms "read" with _ | rv
    · exfalso
      have hg2 : groupD (eraseKey (_remove_protected_fields d) "uri") = Json.str g := by
        simpa [groupD, tgroup] using hg
      rw [createCont_err_read dc uid (pyStrip s) _ perms g (tperm.trans hperm) hg2 hread]
        at hok
      cases hok
    refine ⟨Json.bool (Json.beq rv (Json.arr [Json.str ("group:" ++ g)])), ?_⟩
    simp only [sharedRel, hperm]
    exact ⟨perms, g, _, rfl, hg, by simp [_shared, hread], rfl⟩
  obtain ⟨sharedVal, hsh⟩ := hshx
  -- resolve the selector value
  have hselx : ∃ selOpt, selRel d selOpt := by
    rcases htv : getKey d "target" with _ | tv
    · exact ⟨none, by simp [selRel, htv]⟩
    rcases hts : asObjList tv with _ | ts
    · exfalso
      rw [createCont_err_target dc uid (pyStrip s) _ sharedVal tv
        (sharedRel_stripUri d _ hsh) (ttarget.trans htv) hts] at hok
      cases hok
    exact ⟨some (_target_selectors ts), by simp [selRel, htv, hts]⟩
  obtain ⟨selOpt, hsel⟩ := hselx
  have := create_ok dc uid d s sharedVal selOpt huri hs hsh hsel
  rw [createValidate_uri_ok dc uid d s huri hs] at this
  rw [this] at hok
  exact ⟨s, sharedVal, selOpt, rfl, hs, hsh, hsel, (Except.ok.inj hok).symm⟩

theorem updateCore_eval (dc : DocClaims) (etu gid : String) (a : Dict)
    (uOpt : Option String) (shOpt selOpt : Option Json)
    (hu : uriRelU a uOpt) (hsh : sharedRelU a gid shOpt) (hsel : selRel a selOpt) :
    updateCore dc etu gid a = Except.ok (assembleUpd dc etu uOpt shOpt selOpt
      (getKey a "text") (getKey a "tags") (getKey a "document")
      (eraseKeys ["uri", "permissions", "target", "text", "tags", "document"] a)) := by
  rcases huri : getKey a "uri" with _ | uv <;>
    rcases hperm : getKey a "permissions" with _ | pv <;>
    rcases htv : getKey a "target" with _ | tv <;>
    simp only [uriRelU, sharedRelU, selRel, huri, hperm, htv] at hu hsh hsel
  · subst hu; subst hsh; subst hsel
    simp [updateCore, updateUriStep, updateSharedStep, targetStep, huri, hperm, htv,
      eraseKeys, eraseKey_eq_self]
  · obtain ⟨ts, hts, rfl⟩ := hsel
    subst hu; subst hsh
    simp [updateCore, updateUriStep, updateSharedStep, targetStep, huri, hperm, htv, hts,
      eraseKeys, eraseKey_eq_self]
  · obtain ⟨perms, b, rfl, hb, rfl⟩ := hsh
    subst hu; subst hsel
    simp [updateCore, updateUriStep, updateSharedStep, targetStep, huri, hperm, htv, hb,
      eraseKeys, eraseKey_eq_self]
  · obtain ⟨perms, b, rfl, hb, rfl⟩ := hsh
    obtain ⟨ts, hts, rfl⟩ := hsel
    subst hu
    simp [updateCore, updateUriStep, updateSharedStep, targetStep, huri, hperm, htv, hb,
      hts, eraseKeys, eraseKey_eq_self]
  · obtain ⟨s, rfl, hs, rfl⟩ := hu
    subst hsh; subst hsel
    simp [updateCore, updateUriStep, updateSharedStep, targetStep, asStr, huri, hperm, htv,
      hs, eraseKeys, eraseKey_eq_self]
  · obtain ⟨s, rfl, hs, rfl⟩ := hu
    obtain ⟨ts, hts, rfl⟩ := hsel
    subst hsh
    simp [updateCore, updateUriStep, updateSharedStep, targetStep, asStr, huri, hperm, htv,
      hs, hts, eraseKeys, eraseKey_eq_self]
  · obtain ⟨s, rfl, hs, rfl⟩ := hu
    obtain ⟨perms, b, rfl, hb, rfl⟩ := hsh
    subst hsel
    simp [updateCore, updateUriStep, updateSharedStep, targetStep, asStr, huri, hperm, htv,
      hs, hb, eraseKeys, eraseKey_eq_self]
  · obtain ⟨s, rfl, hs, rfl⟩ := hu
    obtain ⟨perms, b, rfl, hb, rfl⟩ := hsh
    obtain ⟨ts, hts, rfl⟩ := hsel
    simp [updateCore, updateUriStep, updateSharedStep, targetStep, asStr, huri, hperm, htv,
      hs, hb, hts, eraseKeys, eraseKey_eq_self]

theorem updCore_err_blank (dc : DocClaims) (etu gid : String) (a : Dict) (s : String)
    (huri : getKey a "uri" = some (Json.str s)) (hs : pyStrip s = "") :
    updateCore dc etu gid a = Except.error (PyErr.validationError uriRequiredMessage) := by
  simp [updateCore, updateUriStep, huri, asStr, hs]

theorem updCore_err_uri_type (dc : DocClaims) (etu gid : String) (a : Dict) (v : Json)
    (huri : getKey a "uri" = some v) (hv : asStr v = none) :
    updateCore dc etu gid a = Except.error PyErr.typeError := by
  cases v <;> simp_all [updateCore, updateUriStep, asStr]

theorem updCore_err_perm (dc : DocClaims) (etu gid : String) (a : Dict)
    (uOpt : Option String) (pv : Json) (hu : uriRelU a uOpt)
    (hperm : getKey a "permissions" = some pv) (hpv : asObj pv = none) :
    updateCore dc etu gid a = Except.error PyErr.typeError := by
  rcases huri : getKey a "uri" with _ | uv <;>
    simp only [uriRelU, huri] at hu
  · cases pv <;> simp_all [updateCore, updateUriStep, updateSharedStep, asObj]
  · obtain ⟨s, rfl, hs, rfl⟩ := hu
    cases pv <;> simp_all [updateCore, updateUriStep, updateSharedStep, asObj, asStr]

theorem updCore_err_read (dc : DocClaims) (etu gid : String) (a : Dict)
    (uOpt : Option String) (perms : Dict) (hu : uriRelU a uOpt)
    (hperm : getKey a "permissions" = some (Json.obj perms))
    (hread : getKey perms "read" = none) :
    updateCore dc etu gid a = Except.error (PyErr.keyError "read") := by
  rcases huri : getKey a "uri" with _ | uv <;>
    simp only [uriRelU, huri] at hu
  · simp [updateCore, updateUriStep, updateSharedStep, huri, hperm, _shared, hread]
  · obtain ⟨s, rfl, hs, rfl⟩ := hu
    simp [updateCore, updateUriStep, updateSharedStep, asStr, huri, hperm, _shared,
      hread, hs]

theorem updCore_err_target (dc : DocClaims) (etu gid : String) (a : Dict)
    (uOpt : Option String) (shOpt : Option Json) (tv : Json)
    (hu : uriRelU a uOpt) (hsh : sharedRelU a gid shOpt)
    (htv : getKey a "target" = some tv) (hts : asObjList tv = none) :
    updateCore dc etu gid a = Except.error PyErr.typeError := by
  rcases huri : getKey a "uri" with _ | uv <;>
    rcases hperm : getKey a "permissions" with _ | pv <;>
    simp only [uriRelU, sharedRelU, huri, hperm] at hu hsh
  · subst hu
    simp [updateCore, updateUriStep, updateSharedStep, targetStep, huri, hperm, htv, hts]
  · obtain ⟨perms, b, rfl, hb, rfl⟩ := hsh
    subst hu
    simp [updateCore, updateUriStep, updateSharedStep, targetStep, huri, hperm, htv, hts, hb]
  · obtain ⟨s, rfl, hs, rfl⟩ := hu
    simp [updateCore, updateUriStep, updateSharedStep, targetStep, asStr, huri, hperm, htv,
      hts, hs]
  · obtain ⟨s, rfl, hs, rfl⟩ := hu
    obtain ⟨perms, b, rfl, hb, rfl⟩ := hsh
    simp [updateCore, updateUriStep, updateSharedStep, targetStep, asStr, huri, hperm, htv,
      hts, hs, hb]

theorem getKey_stripImm (d : Dict) (k : String) (h1 : k ∉ protectedFields)
    (h2 : k ∉ immutableFields) :
    getKey (eraseKeys immutableFields (_remove_protected_fields d)) k = getKey d k := by
  simp [_remove_protected_fields, h1, h2]

theorem uriRelU_stripImm (d : Dict) (uOpt : Option String) (h : uriRelU d uOpt) :
    uriRelU (eraseKeys immutableFields (_remove_protected_fields d)) uOpt := by
  have t1 := getKey_stripImm d "uri" (by decide) (by decide)
  simp only [uriRelU, t1]
  exact h

theorem sharedRelU_stripImm (d : Dict) (gid : String) (shOpt : Option Json)
    (h : sharedRelU d gid shOpt) :
    sharedRelU (eraseKeys immutableFields (_remove_protected_fields d)) gid shOpt := by
  have t1 := getKey_stripImm d "permissions" (by decide) (by decide)
  simp only [sharedRelU, t1]
  exact h

theorem selRel_stripImm (d : Dict) (selOpt : Option Json) (h : selRel d selOpt) :
    selRel (eraseKeys immutableFields (_remove_protected_fields d)) selOpt := by
  have t1 := getKey_stripImm d "target" (by decide) (by decide)
  simp only [selRel, t1]
  exact h

theorem upd_residual_eq (d : Dict) :
    eraseKeys ["uri", "permissions", "target", "text", "tags", "document"]
      (eraseKeys immutableFields (_remove_protected_fields d)) = updResidual d := by
  simp [updResidual, updConsumed, _remove_protected_fields, protectedFields,
    immutableFields, eraseKeys]

/-- Master success lemma for the update pipeline. -/
theorem upd_ok (dc : DocClaims) (etu gid : String) (d : Dict)
    (uOpt : Option String) (shOpt selOpt : Option Json)
    (hu : uriRelU d uOpt) (hsh : sharedRelU d gid shOpt) (hsel : selRel d selOpt) :
    updateValidate dc etu gid d = Except.ok (assembleUpd dc etu uOpt shOpt selOpt
      (getKey d "text") (getKey d "tags") (getKey d "document") (updResidual d)) := by
  show updateCore dc etu gid (eraseKeys immutableFields (_remove_protected_fields d)) = _
  rw [updateCore_eval dc etu gid _ uOpt shOpt selOpt (uriRelU_stripImm d _ hu)
    (sharedRelU_stripImm d gid _ hsh) (selRel_stripImm d _ hsel)]
  have t1 := getKey_stripImm d "text" (by decide) (by decide)
  have t2 := getKey_stripImm d "tags" (by decide) (by decide)
  have t3 := getKey_stripImm d "document" (by decide) (by decide)
  simp only [t1, t2, t3, upd_residual_eq]

/-- Master inversion lemma for the update pipeline. -/
theorem upd_ok_elim (dc : DocClaims) (etu gid : String) (d : Dict) (out : Dict)
    (hok : updateValidate dc etu gid d = Except.ok out) :
    ∃ uOpt shOpt selOpt, uriRelU d uOpt ∧ sharedRelU d gid shOpt ∧ selRel d selOpt ∧
      out = assembleUpd dc etu uOpt shOpt selOpt (getKey d "text") (getKey d "tags")
        (getKey d "document") (updResidual d) := by
  have hcore : updateCore dc etu gid (eraseKeys immutableFields (_remove_protected_fields d))
      = Except.ok out := hok
  have t1 := getKey_stripImm d "uri" (by decide) (by decide)
  have t2 := getKey_stripImm d "permissions" (by decide) (by decide)
  have t3 := getKey_stripImm d "target" (by decide) (by decide)
  -- resolve the uri value
  have hux : ∃ uOpt, uriRelU d uOpt := by
    rcases huri : getKey d "uri" with _ | uv
    · exact ⟨none, by simp [uriRelU, huri]⟩
    rcases hv : asStr uv with _ | s
    · exfalso
      rw [updCore_err_uri_type dc etu gid _ uv (t1.trans huri) hv] at hcore
      cases hcore
    have huv : uv = Json.str s := by cases uv <;> simp_all [asStr]
    subst huv
    by_cases hs : pyStrip s = ""
    · exfalso
      rw [updCore_err_blank dc etu gid _ s (t1.trans huri) hs] at hcore
      cases hcore
    refine ⟨some (pyStrip s), ?_⟩
    simp only [uriRelU, huri]
    exact ⟨s, rfl, hs, rfl⟩
  obtain ⟨uOpt, hu⟩ := hux
  have hu0 := uriRelU_stripImm d _ hu
  -- resolve the shared value
  have hshx : ∃ shOpt, sharedRelU d gid shOpt := by
    rcases hperm : getKey d "permissions" with _ | pv
    · exact ⟨none, by simp [sharedRelU, hperm]⟩
    rcases hpv : asObj pv with _ | perms
    · exfalso
      rw [updCore_err_perm dc etu gid _ uOpt pv hu0 (t2.trans hperm) hpv] at hcore
      cases hcore
    have hpvo : pv = Json.obj perms := by cases pv <;> simp_all [asObj]
    subst hpvo
    rcases hread : getKey perms "read" with _ | rv
    · exfalso
      rw [updCore_err_read dc etu gid _ uOpt perms hu0 (t2.trans hperm) hread] at hcore
      cases hcore
    refine ⟨some (Json.bool (Json.beq rv (Json.arr [Json.str ("group:" ++ gid)]))), ?_⟩
    simp only [sharedRelU, hperm]
    exact ⟨perms, _, rfl, by simp [_shared, hread], rfl⟩
  obtain ⟨shOpt, hsh⟩ := hshx
  -- resolve the selector value
  have hselx : ∃ selOpt, selRel d selOpt := by
    rcases htv : getKey d "target" with _ | tv
    · exact ⟨none, by simp [selRel, htv]⟩
    rcases hts : asObjList tv with _ | ts
    · exfalso
      rw [updCore_err_target dc etu gid _ uOpt shOpt tv hu0
        (sharedRelU_stripImm d gid _ hsh) (t3.trans htv) hts] at hcore
      cases hcore
    exact ⟨some (_target_selectors ts), by simp [selRel, htv, hts]⟩
  obtain ⟨selOpt, hsel⟩ := hselx
  have := upd_ok dc etu gid d uOpt shOpt selOpt hu hsh hsel
  rw [this] at hok
  exact ⟨uOpt, shOpt, selOpt, hu, hsh, hsel, (Except.ok.inj hok).symm⟩

theorem validStruct_uri (d : Dict) (hv : validStruct d = true) (v : Json)
    (h : getKey d "uri" = some v) : ∃ s, v = Json.str s := by
  simp only [validStruct, Bool.and_eq_true] at hv
  obtain ⟨⟨⟨h1, _⟩, _⟩, _⟩ := hv
  rw [h] at h1
  cases v <;> simp_all [isOptStr]

theorem validStruct_group (d : Dict) (hv : validStruct d = true) :
    ∃ g, groupD d = Json.str g := by
  simp only [validStruct, Bool.and_eq_true] at hv
  obtain ⟨⟨⟨_, h2⟩, _⟩, _⟩ := hv
  rcases hg : getKey d "group" with _ | gv
  · exact ⟨"__world__", by simp [groupD, hg]⟩
  · rw [hg] at h2
    cases gv with
    | str s => exact ⟨s, by simp [groupD, hg]⟩
    | null => simp [isOptStr] at h2
    | bool b => simp [isOptStr] at h2
    | num n => simp [isOptStr] at h2
    | arr xs => simp [isOptStr] at h2
    | obj fs => simp [isOptStr] at h2

theorem validStruct_sharedRel (d : Dict) (hv : validStruct d = true) :
    ∃ sharedVal, sharedRel d sharedVal := by
  obtain ⟨g, hg⟩ := validStruct_group d hv
  simp only [validStruct, Bool.and_eq_true] at hv
  obtain ⟨⟨⟨_, _⟩, h3⟩, _⟩ := hv
  rcases hperm : getKey d "permissions" with _ | pv
  · exact ⟨Json.bool false, by simp [sharedRel, hperm]⟩
  · rw [hperm] at h3
    cases pv <;> simp_all [Option.isSome_iff_exists]
    case obj perms =>
    obtain ⟨rv, hread⟩ := h3
    refine ⟨Json.bool (Json.beq rv (Json.arr [Json.str ("group:" ++ g)])), ?_⟩
    simp only [sharedRel, hperm]
    exact ⟨perms, g, _, rfl, hg, by simp [_shared, hread], rfl⟩

theorem validStruct_sharedRelU (d : Dict) (gid : String) (hv : validStruct d = true) :
    ∃ shOpt, sharedRelU d gid shOpt := by
  simp only [validStruct, Bool.and_eq_true] at hv
  obtain ⟨⟨⟨_, _⟩, h3⟩, _⟩ := hv
  rcases hperm : getKey d "permissions" with _ | pv
  · exact ⟨none, by simp [sharedRelU, hperm]⟩
  · rw [hperm] at h3
    cases pv <;> simp_all [Option.isSome_iff_exists]
    case obj perms =>
    obtain ⟨rv, hread⟩ := h3
    refine ⟨some (Json.bool (Json.beq rv (Json.arr [Json.str ("group:" ++ gid)]))), ?_⟩
    simp only [sharedRelU, hperm]
    exact ⟨perms, _, rfl, by simp [_shared, hread], rfl⟩

theorem validStruct_selRel (d : Dict) (hv : validStruct d = true) :
    ∃ selOpt, selRel d selOpt := by
  simp only [validStruct, Bool.and_eq_true] at hv
  obtain ⟨⟨⟨_, _⟩, _⟩, h4⟩ := hv
  rcases htv : getKey d "target" with _ | tv
  · exact ⟨none, by simp [selRel, htv]⟩
  · rw [htv] at h4
    rw [Option.isSome_iff_exists] at h4
    obtain ⟨ts, hts⟩ := h4
    exact ⟨some (_target_selectors ts), by simp [selRel, htv, hts]⟩

/-- C1: for every payload that passes structural validation, create fails
with the ValidationError whose message is the uri-required message exactly
when the `uri` field is absent or blank after stripping; otherwise create
succeeds and the output `target_uri` is the stripped `uri`. -/
theorem create_uri_required (dc : DocClaims) (uid : String) (d : Dict)
    (hv : validStruct d = true) :
    (createValidate dc uid d = Except.error (PyErr.validationError uriRequiredMessage) ↔
      (getKey d "uri" = none ∨ ∃ s, getKey d "uri" = some (Json.str s) ∧ pyStrip s = "")) ∧
    (∀ s, getKey d "uri" = some (Json.str s) → pyStrip s ≠ "" →
      ∃ out, createValidate dc uid d = Except.ok out ∧
        getKey out "target_uri" = some (Json.str (pyStrip s))) := by
  have success : ∀ s, getKey d "uri" = some (Json.str s) → pyStrip s ≠ "" →
      ∃ out, createValidate dc uid d = Except.ok out ∧
        getKey out "target_uri" = some (Json.str (pyStrip s)) := by
    intro s huri hs
    obtain ⟨sharedVal, hsh⟩ := validStruct_sharedRel d hv
    obtain ⟨selOpt, hsel⟩ := validStruct_selRel d hv
    refine ⟨_, create_ok dc uid d s sharedVal selOpt huri hs hsh hsel, ?_⟩
    rw [aC_target_uri]
  refine ⟨⟨fun herr => ?_, fun h => ?_⟩, success⟩
  · by_contra hnb
    push_neg at hnb
    obtain ⟨hn, hb⟩ := hnb
    rcases huri : getKey d "uri" with _ | uv
    · exact hn huri
    obtain ⟨s, rfl⟩ := validStruct_uri d hv uv huri
    have hs : pyStrip s ≠ "" := hb s huri
    obtain ⟨out, hok, _⟩ := success s huri hs
    rw [hok] at herr
    cases herr
  · rcases h with h | ⟨s, h, hs⟩
    · exact create_err_no_uri dc uid d h
    · exact create_err_blank dc uid d s h hs

/-- Witness for C1: a payload with a padded uri succeeds with the stripped
uri, and a blank uri produces the uri-required error. -/
theorem create_uri_required_witness :
    validStruct [("uri", Json.str " http://x ")] = true ∧
    (∃ out, createValidate emptyDocClaims "acct:u" [("uri", Json.str " http://x ")] =
        Except.ok out ∧ getKey out "target_uri" = some (Json.str "http://x")) ∧
    createValidate emptyDocClaims "acct:u" [("uri", Json.str "  ")] =
      Except.error (PyErr.validationError uriRequiredMessage) := by
  refine ⟨by decide, ?_, ?_⟩
  · have h := (create_uri_required emptyDocClaims "acct:u" [("uri", Json.str " http://x ")]
      (by decide)).2 " http://x " rfl (by decide)
    simpa using h
  · exact (create_uri_required emptyDocClaims "acct:u" [("uri", Json.str "  ")]
      (by decide)).1.mpr (Or.inr ⟨"  ", rfl, by decide⟩)

/-- C2: the permission reduction is true exactly when the `read` array is
the single-element list `group:` + groupid; every other read value gives
false; the result depends only on the `read` entry, so `admin`, `delete`
and `update` entries have no effect. -/
theorem shared_characterization :
    (∀ (p : Dict) (g : String) (rs : List String),
      getKey p "read" = some (Json.arr (rs.map Json.str)) →
        ((_shared p g = Except.ok true ↔ rs = ["group:" ++ g]) ∧
         (_shared p g = Except.ok false ↔ rs ≠ ["group:" ++ g]))) ∧
    (∀ (p1 p2 : Dict) (g : String), getKey p1 "read" = getKey p2 "read" →
      _shared p1 g = _shared p2 g) := by
  constructor
  · intro p g rs h
    have key : Json.beq (Json.arr (rs.map Json.str))
        (Json.arr [Json.str ("group:" ++ g)]) = true ↔ rs = ["group:" ++ g] := by
      rw [Json.beq_iff_eq]
      constructor
      · intro h2
        have h3 := Json.arr.inj h2
        exact List.map_injective_iff.mpr (fun a b hab => Json.str.inj hab) h3
      · rintro rfl
        rfl
    constructor
    · simp only [_shared, h, Except.ok.injEq]
      exact key
    · simp only [_shared, h, Except.ok.injEq, ne_eq]
      rw [← key]
      cases hb : Json.beq (Json.arr (rs.map Json.str))
        (Json.arr [Json.str ("group:" ++ g)]) <;> simp
  · intro p1 p2 g h
    simp only [_shared, h]

/-- Witness for C2: read restricted to the one group gives true even with an
admin entry present; an extra read entry gives false. -/
theorem shared_characterization_witness :
    _shared [("read", Json.arr [Json.str "group:abc"]),
             ("admin", Json.arr [Json.str "acct:x"])] "abc" = Except.ok true ∧
    _shared [("read", Json.arr [Json.str "group:abc", Json.str "acct:x"])] "abc" =
      Except.ok false := by
  constructor
  · exact ((shared_characterization.1
      [("read", Json.arr [Json.str "group:abc"]), ("admin", Json.arr [Json.str "acct:x"])]
      "abc" ["group:abc"] rfl).1).mpr (by decide)
  · exact ((shared_characterization.1
      [("read", Json.arr [Json.str "group:abc", Json.str "acct:x"])]
      "abc" ["group:abc", "acct:x"] rfl).2).mpr (by decide)

/-- C7: the selector extraction takes exactly the `selector` field of the
first target when present, the empty list in every other case, and depends
on nothing but the `selector` field of the first target. -/
theorem target_selectors_spec :
    (∀ (t : Dict) (rest : List Dict) (sel : Json),
       getKey t "selector" = some sel → _target_selectors (t :: rest) = sel) ∧
    _target_selectors [] = Json.arr [] ∧
    (∀ (t : Dict) (rest : List Dict), getKey t "selector" = none →
       _target_selectors (t :: rest) = Json.arr []) ∧
    (∀ (t1 t2 : Dict) (rest1 rest2 : List Dict),
       getKey t1 "selector" = getKey t2 "selector" →
       _target_selectors (t1 :: rest1) = _target_selectors (t2 :: rest2)) := by
  refine ⟨fun t rest sel h => by simp [_target_selectors, h], rfl,
    fun t rest h => by simp [_target_selectors, h], fun t1 t2 rest1 rest2 h => ?_⟩
  simp only [_target_selectors, h]

/-- Witness for C7: the example from the spec, with a second target entry
discarded. -/
theorem target_selectors_spec_witness :
    _target_selectors
      [[("selector", Json.arr [Json.obj [("type", Json.str "TextQuoteSelector")]])],
       [("selector", Json.arr [Json.obj [("type", Json.str "X")]])]] =
      Json.arr [Json.obj [("type", Json.str "TextQuoteSelector")]] :=
  target_selectors_spec.1 _ _ _ rfl

/-- C3: on create, a reply (non-empty `references`) has no `groupid` key in
the output even when the client sent `group`; a top-level annotation
(empty or absent `references`) gets the client group or the world
default. -/
theorem create_groupid (dc : DocClaims) (uid : String) (d out : Dict)
    (hok : createValidate dc uid d = Except.ok out) :
    (∀ refs, getKey d "references" = some (Json.arr refs) → refs ≠ [] →
       getKey out "groupid" = none) ∧
    ((getKey d "references" = none ∨ getKey d "references" = some (Json.arr [])) →
       getKey out "groupid" = some ((getKey d "group").getD (Json.str "__world__"))) := by
  obtain ⟨s, sharedVal, selOpt, _, _, _, _, rfl⟩ := create_ok_elim dc uid d out hok
  constructor
  · intro refs h hne
    have ht : truthy (refsD d) = true := by
      cases refs with
      | nil => exact absurd rfl hne
      | cons a t => simp [refsD, h, truthy]
    rw [aC_groupid]
    simp [ht]
  · intro h
    have ht : truthy (refsD d) = false := by
      rcases h with h | h <;> simp [refsD, h, truthy]
    rw [aC_groupid]
    simp [ht, groupD]

/-- Witness for C3: a reply payload with a client-sent group loses its
`groupid` key. -/
theorem create_groupid_witness :
    getKey
      [("userid", Json.str "acct:u"), ("target_uri", Json.str "u"), ("text", Json.str ""),
       ("tags", Json.arr []), ("references", Json.arr [Json.str "p"]),
       ("shared", Json.bool false),
       ("document", Json.obj [("document_uri_dicts", Json.arr []),
                              ("document_meta_dicts", Json.arr [])]),
       ("extra", Json.obj [])] "groupid" = none :=
  (create_groupid emptyDocClaims "acct:u"
    [("uri", Json.str "u"), ("group", Json.str "abc"),
     ("references", Json.arr [Json.str "p"])]
    [("userid", Json.str "acct:u"), ("target_uri", Json.str "u"), ("text", Json.str ""),
     ("tags", Json.arr []), ("references", Json.arr [Json.str "p"]),
     ("shared", Json.bool false),
     ("document", Json.obj [("document_uri_dicts", Json.arr []),
                            ("document_meta_dicts", Json.arr [])]),
     ("extra", Json.obj [])] rfl).1 [Json.str "p"] rfl (by decide)

/-- C9: on create the output always carries a boolean `shared` key — the
permission reduction at the group value when `permissions` was supplied,
false otherwise; on update `shared` is present exactly when `permissions`
was supplied. -/
theorem shared_presence (dc : DocClaims) (uid etu gid : String) (d out : Dict) :
    (createValidate dc uid d = Except.ok out →
      ∃ b : Bool, getKey out "shared" = some (Json.bool b) ∧
        (getKey d "permissions" = none → b = false) ∧
        (∀ perms, getKey d "permissions" = some (Json.obj perms) →
          ∃ g, groupD d = Json.str g ∧ _shared perms g = Except.ok b)) ∧
    (updateValidate dc etu gid d = Except.ok out →
      ((getKey out "shared").isSome ↔ (getKey d "permissions").isSome)) := by
  constructor
  · intro hok
    obtain ⟨s, sharedVal, selOpt, _, _, hsh, _, rfl⟩ := create_ok_elim dc uid d out hok
    rcases hperm : getKey d "permissions" with _ | pv <;>
      simp only [sharedRel, hperm] at hsh
    · subst hsh
      refine ⟨false, by rw [aC_shared], fun _ => rfl, fun perms h => ?_⟩
      cases h
    · obtain ⟨perms, g, b, rfl, hg, hb, rfl⟩ := hsh
      refine ⟨b, by rw [aC_shared], fun h => ?_, fun perms2 h => ?_⟩
      · cases h
      · have h2 : perms = perms2 := by simpa using h
        subst h2
        exact ⟨g, hg, hb⟩
  · intro hok
    obtain ⟨uOpt, shOpt, selOpt, _, hsh, _, rfl⟩ := upd_ok_elim dc etu gid d out hok
    rw [aU_shared]
    rcases hperm : getKey d "permissions" with _ | pv <;>
      simp only [sharedRelU, hperm] at hsh
    · subst hsh; simp
    · obtain ⟨perms, b, rfl, hb, rfl⟩ := hsh; simp

/-- Witness for C9: create without permissions still has a boolean `shared`
key; update without permissions has no `shared` key. -/
theorem shared_presence_witness :
    (∃ b : Bool,
      getKey
        [("userid", Json.str "acct:u"), ("target_uri", Json.str "u"), ("text", Json.str ""),
         ("tags", Json.arr []), ("groupid", Json.str "__world__"),
         ("references", Json.arr []), ("shared", Json.bool false),
         ("document", Json.obj [("document_uri_dicts", Json.arr []),
                                ("document_meta_dicts", Json.arr [])]),
         ("extra", Json.obj [])] "shared" = some (Json.bool b)) ∧
    ((getKey [("extra", Json.obj [])] "shared").isSome ↔
      (getKey ([] : Dict) "permissions").isSome) := by
  constructor
  · obtain ⟨b, hb, _, _⟩ := (shared_presence emptyDocClaims "acct:u" "http://old" "grp"
      [("uri", Json.str "u")]
      [("userid", Json.str "acct:u"), ("target_uri", Json.str "u"), ("text", Json.str ""),
       ("tags", Json.arr []), ("groupid", Json.str "__world__"),
       ("references", Json.arr []), ("shared", Json.bool false),
       ("document", Json.obj [("document_uri_dicts", Json.arr []),
                              ("document_meta_dicts", Json.arr [])]),
       ("extra", Json.obj [])]).1 rfl
    exact ⟨b, hb⟩
  · exact (shared_presence emptyDocClaims "acct:u" "http://old" "grp" []
      [("extra", Json.obj [])]).2 rfl

/-- C10: for a reply created with permissions, `shared` is computed from the
client-sent group (or the world default) even though `groupid` is then
removed from the output. -/
theorem reply_shared_group (dc : DocClaims) (uid : String) (d out : Dict) (refs : List Json)
    (hok : createValidate dc uid d = Except.ok out)
    (hrefs : getKey d "references" = some (Json.arr refs)) (hne : refs ≠ []) :
    getKey out "groupid" = none ∧
    (∀ perms, getKey d "permissions" = some (Json.obj perms) →
      ∃ g b, groupD d = Json.str g ∧ _shared perms g = Except.ok b ∧
        getKey out "shared" = some (Json.bool b)) := by
  obtain ⟨s, sharedVal, selOpt, _, _, hsh, _, rfl⟩ := create_ok_elim dc uid d out hok
  have ht : truthy (refsD d) = true := by
    cases refs with
    | nil => exact absurd rfl hne
    | cons a t => simp [refsD, hrefs, truthy]
  constructor
  · rw [aC_groupid]; simp [ht]
  · intro perms h
    rcases hperm : getKey d "permissions" with _ | pv <;>
      simp only [sharedRel] at hsh <;> rw [hperm] at h
    · cases h
    · rw [hperm] at hsh
      simp only [] at hsh
      obtain ⟨perms2, g, b, rfl, hg, hb, rfl⟩ := hsh
      have h2 : perms2 = perms := by simpa using h
      subst h2
      exact ⟨g, b, hg, hb, by rw [aC_shared]⟩

/-- C4: no protected field ever appears in the output of create or update,
neither as a named field nor inside `extra`, regardless of what the client
supplied. -/
theorem protected_absent (dc : DocClaims) (uid etu gid : String) (d out : Dict) (k : String)
    (hk : k ∈ protectedFields) :
    (createValidate dc uid d = Except.ok out →
       getKey out k = none ∧
       ∀ e, getKey out "extra" = some (Json.obj e) → getKey e k = none) ∧
    (updateValidate dc etu gid d = Except.ok out →
       getKey out k = none ∧
       ∀ e, getKey out "extra" = some (Json.obj e) → getKey e k = none) := by
  have hkc : k ∈ createConsumed := by
    simp [createConsumed, List.mem_append, hk]
  have hku : k ∈ updConsumed := by
    simp [updConsumed, List.mem_append, hk]
  have hne : ∀ k2 : String, k2 ∉ protectedFields → k ≠ k2 :=
    fun k2 h2 heq => h2 (heq ▸ hk)
  constructor
  · intro hok
    obtain ⟨s, sharedVal, selOpt, _, _, _, _, rfl⟩ := create_ok_elim dc uid d out hok
    refine ⟨?_, ?_⟩
    · exact aC_other _ _ _ _ _ _ _ _ _ _ k (hne "userid" (by decide))
        (hne "target_uri" (by decide)) (hne "text" (by decide)) (hne "tags" (by decide))
        (hne "groupid" (by decide)) (hne "references" (by decide))
        (hne "shared" (by decide)) (hne "target_selectors" (by decide))
        (hne "document" (by decide)) (hne "extra" (by decide))
    · intro e he
      rw [aC_extra] at he
      have h2 : createResidual d = e := by simpa using he
      subst h2
      simp [createResidual, hkc]
  · intro hok
    obtain ⟨uOpt, shOpt, selOpt, _, _, _, rfl⟩ := upd_ok_elim dc etu gid d out hok
    refine ⟨?_, ?_⟩
    · exact aU_other _ _ _ _ _ _ _ _ _ k (hne "target_uri" (by decide))
        (hne "shared" (by decide)) (hne "target_selectors" (by decide))
        (hne "text" (by decide)) (hne "tags" (by decide)) (hne "document" (by decide))
        (hne "extra" (by decide))
    · intro e he
      rw [aU_extra] at he
      have h2 : updResidual d = e := by simpa using he
      subst h2
      simp [updResidual, hku]

/-- Witness for C4: a payload smuggling an `id` field; the create output has
no `id` key. -/
theorem protected_absent_witness :
    getKey
      [("userid", Json.str "acct:u"), ("target_uri", Json.str "u"), ("text", Json.str ""),
       ("tags", Json.arr []), ("groupid", Json.str "__world__"),
       ("references", Json.arr []), ("shared", Json.bool false),
       ("document", Json.obj [("document_uri_dicts", Json.arr []),
                              ("document_meta_dicts", Json.arr [])]),
       ("extra", Json.obj [])] "id" = none :=
  ((protected_absent emptyDocClaims "acct:u" "http://old" "grp"
    [("uri", Json.str "u"), ("id", Json.str "evil")]
    [("userid", Json.str "acct:u"), ("target_uri", Json.str "u"), ("text", Json.str ""),
     ("tags", Json.arr []), ("groupid", Json.str "__world__"),
     ("references", Json.arr []), ("shared", Json.bool false),
     ("document", Json.obj [("document_uri_dicts", Json.arr []),
                            ("document_meta_dicts", Json.arr [])]),
     ("extra", Json.obj [])] "id" (by decide)).1 rfl).1

/-- C5: client-sent `group`, `groupid`, `userid` and `references` are
discarded by update — none of them appears in the output (named or in
`extra`), and removing such a field from the payload leaves the whole
output unchanged. -/
theorem update_immutable (dc : DocClaims) (etu gid : String) (d : Dict) (k : String)
    (hk : k ∈ immutableFields) :
    (∀ out, updateValidate dc etu gid d = Except.ok out →
       getKey out k = none ∧
       ∀ e, getKey out "extra" = some (Json.obj e) → getKey e k = none) ∧
    updateValidate dc etu gid (eraseKey d k) = updateValidate dc etu gid d := by
  have hku : k ∈ updConsumed := by
    simp [updConsumed, List.mem_append, hk]
  have hne : ∀ k2 : String, k2 ∉ immutableFields → k ≠ k2 :=
    fun k2 h2 heq => h2 (heq ▸ hk)
  constructor
  · intro out hok
    obtain ⟨uOpt, shOpt, selOpt, _, _, _, rfl⟩ := upd_ok_elim dc etu gid d out hok
    refine ⟨?_, ?_⟩
    · exact aU_other _ _ _ _ _ _ _ _ _ k (hne "target_uri" (by decide))
        (hne "shared" (by decide)) (hne "target_selectors" (by decide))
        (hne "text" (by decide)) (hne "tags" (by decide)) (hne "document" (by decide))
        (hne "extra" (by decide))
    · intro e he
      rw [aU_extra] at he
      have h2 : updResidual d = e := by simpa using he
      subst h2
      simp [updResidual, hku]
  · show updateCore dc etu gid
        (eraseKeys immutableFields (_remove_protected_fields (eraseKey d k))) =
      updateCore dc etu gid (eraseKeys immutableFields (_remove_protected_fields d))
    simp only [_remove_protected_fields]
    rw [eraseKeys_eraseKey_comm, eraseKeys_eraseKey_of_mem _ _ _ hk]

/-- Witness for C5: sending `group` on update produces the same output as
not sending it, and the output has no `group` key. -/
theorem update_immutable_witness :
    updateValidate emptyDocClaims "http://old" "grp"
        (eraseKey [("group", Json.str "evil"), ("text", Json.str "t")] "group") =
      updateValidate emptyDocClaims "http://old" "grp"
        [("group", Json.str "evil"), ("text", Json.str "t")] ∧
    getKey [("text", Json.str "t"), ("extra", Json.obj [])] "group" = none := by
  constructor
  · exact (update_immutable emptyDocClaims "http://old" "grp"
      [("group", Json.str "evil"), ("text", Json.str "t")] "group" (by decide)).2
  · exact ((update_immutable emptyDocClaims "http://old" "grp"
      [("group", Json.str "evil"), ("text", Json.str "t")] "group" (by decide)).1
      [("text", Json.str "t"), ("extra", Json.obj [])] rfl).1

/-- C6: on update, `uri` is optional — absence succeeds, the output carries
no `target_uri`, and the document projection falls back to the existing
uri; a present but blank `uri` fails with the uri-required error; a present
non-blank `uri` becomes the stripped `target_uri`. -/
theorem update_uri_optional (dc : DocClaims) (etu gid : String) (d : Dict)
    (hv : validStruct d = true) :
    (getKey d "uri" = none →
      ∃ out, updateValidate dc etu gid d = Except.ok out ∧
        getKey out "target_uri" = none ∧
        (∀ dv, getKey d "document" = some dv →
          getKey out "document" = some (_document dc dv etu))) ∧
    (∀ s, getKey d "uri" = some (Json.str s) → pyStrip s = "" →
       updateValidate dc etu gid d =
         Except.error (PyErr.validationError uriRequiredMessage)) ∧
    (∀ s, getKey d "uri" = some (Json.str s) → pyStrip s ≠ "" →
       ∃ out, updateValidate dc etu gid d = Except.ok out ∧
         getKey out "target_uri" = some (Json.str (pyStrip s))) := by
  obtain ⟨shOpt, hsh⟩ := validStruct_sharedRelU d gid hv
  obtain ⟨selOpt, hsel⟩ := validStruct_selRel d hv
  refine ⟨fun huri => ?_, fun s huri hs => ?_, fun s huri hs => ?_⟩
  · have hu : uriRelU d none := by simp [uriRelU, huri]
    refine ⟨_, upd_ok dc etu gid d none shOpt selOpt hu hsh hsel, ?_, ?_⟩
    · rw [aU_target_uri]; rfl
    · intro dv hdv
      rw [aU_document, hdv]
      rfl
  · have t1 := getKey_stripImm d "uri" (by decide) (by decide)
    exact updCore_err_blank dc etu gid _ s (t1.trans huri) hs
  · have hu : uriRelU d (some (pyStrip s)) := by
      simp only [uriRelU, huri]
      exact ⟨s, rfl, hs, rfl⟩
    refine ⟨_, upd_ok dc etu gid d _ shOpt selOpt hu hsh hsel, ?_⟩
    rw [aU_target_uri]; rfl

/-- Witness for C6: a blank uri fails on update, and a padded uri becomes
the stripped target uri. -/
theorem update_uri_optional_witness :
    updateValidate emptyDocClaims "http://old" "grp" [("uri", Json.str " ")] =
      Except.error (PyErr.validationError uriRequiredMessage) ∧
    getKey [("target_uri", Json.str "http://new"), ("extra", Json.obj [])] "target_uri" =
      some (Json.str "http://new") := by
  constructor
  · exact (update_uri_optional emptyDocClaims "http://old" "grp" [("uri", Json.str " ")]
      (by decide)).2.1 " " rfl (by decide)
  · obtain ⟨out, hok, ht⟩ := (update_uri_optional emptyDocClaims "http://old" "grp"
      [("uri", Json.str " http://new ")] (by decide)).2.2 " http://new " rfl (by decide)
    have h2 : out = [("target_uri", Json.str "http://new"), ("extra", Json.obj [])] :=
      Except.ok.inj (hok.symm.trans rfl)
    rw [← h2]
    exact ht

theorem sharedRel_congr (d1 d2 : Dict) (sv : Json)
    (hp : getKey d1 "permissions" = getKey d2 "permissions")
    (hg : getKey d1 "group" = getKey d2 "group") (h : sharedRel d1 sv) : sharedRel d2 sv := by
  simp only [sharedRel, groupD] at h ⊢
  rw [hp, hg] at h
  exact h

theorem selRel_congr (d1 d2 : Dict) (so : Option Json)
    (ht : getKey d1 "target" = getKey d2 "target") (h : selRel d1 so) : selRel d2 so := by
  simp only [selRel] at h ⊢
  rw [ht] at h
  exact h

theorem uriRelU_congr (d1 d2 : Dict) (uo : Option String)
    (hu : getKey d1 "uri" = getKey d2 "uri") (h : uriRelU d1 uo) : uriRelU d2 uo := by
  simp only [uriRelU] at h ⊢
  rw [hu] at h
  exact h

theorem sharedRelU_congr (d1 d2 : Dict) (gid : String) (so : Option Json)
    (hp : getKey d1 "permissions" = getKey d2 "permissions")
    (h : sharedRelU d1 gid so) : sharedRelU d2 gid so := by
  simp only [sharedRelU] at h ⊢
  rw [hp] at h
  exact h

/-- C8: every field that is neither protected nor consumed into a named
output flows unchanged into `extra` (on create and update), `extra`
contains nothing else, and an unrecognized field never turns a succeeding
run into a failing one or vice versa. -/
theorem extra_residual (dc : DocClaims) (uid etu gid : String) (d out : Dict) :
    (createValidate dc uid d = Except.ok out →
       ∃ e, getKey out "extra" = some (Json.obj e) ∧
         (∀ k, k ∉ createConsumed → getKey e k = getKey d k) ∧
         (∀ k, k ∈ createConsumed → getKey e k = none)) ∧
    (updateValidate dc etu gid d = Except.ok out →
       ∃ e, getKey out "extra" = some (Json.obj e) ∧
         (∀ k, k ∉ updConsumed → getKey e k = getKey d k) ∧
         (∀ k, k ∈ updConsumed → getKey e k = none)) ∧
    (∀ k v, k ∉ createConsumed →
       ((∃ o, createValidate dc uid ((k, v) :: d) = Except.ok o) ↔
        (∃ o, createValidate dc uid d = Except.ok o))) ∧
    (∀ k v, k ∉ updConsumed →
       ((∃ o, updateValidate dc etu gid ((k, v) :: d) = Except.ok o) ↔
        (∃ o, updateValidate dc etu gid d = Except.ok o))) := by
  refine ⟨fun hok => ?_, fun hok => ?_, fun k v hk => ?_, fun k v hk => ?_⟩
  · obtain ⟨s, sv, so, _, _, _, _, rfl⟩ := create_ok_elim dc uid d out hok
    refine ⟨createResidual d, by rw [aC_extra], fun k hk => ?_, fun k hk => ?_⟩
    · simp [createResidual, hk]
    · simp [createResidual, hk]
  · obtain ⟨uo, sho, so, _, _, _, rfl⟩ := upd_ok_elim dc etu gid d out hok
    refine ⟨updResidual d, by rw [aU_extra], fun k hk => ?_, fun k hk => ?_⟩
    · simp [updResidual, hk]
    · simp [updResidual, hk]
  · have n1 : k ≠ "uri" := fun h => hk (by simp [createConsumed, h])
    have n2 : k ≠ "permissions" := fun h => hk (by simp [createConsumed, h])
    have n3 : k ≠ "group" := fun h => hk (by simp [createConsumed, h])
    have n4 : k ≠ "target" := fun h => hk (by simp [createConsumed, h])
    constructor
    · rintro ⟨o, ho⟩
      obtain ⟨s, sv, so, huri, hs, hsh, hsel, _⟩ := create_ok_elim dc uid _ o ho
      rw [getKey_cons] at huri
      rw [if_neg n1] at huri
      exact ⟨_, create_ok dc uid d s sv so huri hs
        (sharedRel_congr _ d sv (by simp [n2]) (by simp [n3]) hsh)
        (selRel_congr _ d so (by simp [n4]) hsel)⟩
    · rintro ⟨o, ho⟩
      obtain ⟨s, sv, so, huri, hs, hsh, hsel, _⟩ := create_ok_elim dc uid d o ho
      exact ⟨_, create_ok dc uid ((k, v) :: d) s sv so (by simp [n1, huri]) hs
        (sharedRel_congr d _ sv (by simp [n2]) (by simp [n3]) hsh)
        (selRel_congr d _ so (by simp [n4]) hsel)⟩
  · have n1 : k ≠ "uri" := fun h => hk (by simp [updConsumed, h])
    have n2 : k ≠ "permissions" := fun h => hk (by simp [updConsumed, h])
    have n4 : k ≠ "target" := fun h => hk (by simp [updConsumed, h])
    constructor
    · rintro ⟨o, ho⟩
      obtain ⟨uo, sho, so, hu, hsh, hsel, _⟩ := upd_ok_elim dc etu gid _ o ho
      exact ⟨_, upd_ok dc etu gid d uo sho so
        (uriRelU_congr _ d uo (by simp [n1]) hu)
        (sharedRelU_congr _ d gid sho (by simp [n2]) hsh)
        (selRel_congr _ d so (by simp [n4]) hsel)⟩
    · rintro ⟨o, ho⟩
      obtain ⟨uo, sho, so, hu, hsh, hsel, _⟩ := upd_ok_elim dc etu gid d o ho
      exact ⟨_, upd_ok dc etu gid ((k, v) :: d) uo sho so
        (uriRelU_congr d _ uo (by simp [n1]) hu)
        (sharedRelU_congr d _ gid sho (by simp [n2]) hsh)
        (selRel_congr d _ so (by simp [n4]) hsel)⟩

/-- Witness for C8: an unrecognized `custom` field survives into `extra` of
the create output, and `extra` holds no consumed key. -/
theorem extra_residual_witness :
    getKey [("custom", Json.num 7)] "custom" = some (Json.num 7) ∧
    getKey [("custom", Json.num 7)] "uri" = none := by
  obtain ⟨e, he, hout, hin⟩ := (extra_residual emptyDocClaims "acct:u" "x" "g"
    [("uri", Json.str "u"), ("custom", Json.num 7)]
    [("userid", Json.str "acct:u"), ("target_uri", Json.str "u"), ("text", Json.str ""),
     ("tags", Json.arr []), ("groupid", Json.str "__world__"),
     ("references", Json.arr []), ("shared", Json.bool false),
     ("document", Json.obj [("document_uri_dicts", Json.arr []),
                            ("document_meta_dicts", Json.arr [])]),
     ("extra", Json.obj [("custom", Json.num 7)])]).1 rfl
  have h2 : Json.obj [("custom", Json.num 7)] = Json.obj e := by
    have h3 : some (Json.obj [("custom", Json.num 7)]) = some (Json.obj e) := by
      exact Option.some.inj (by exact (rfl : (some (some (Json.obj [("custom", Json.num 7)]))) = _)) ▸ he
    exact Option.some.inj h3
  have h4 : e = [("custom", Json.num 7)] := (Json.obj.inj h2).symm
  subst h4
  exact ⟨(hout "custom" (by decide)).trans rfl, hin "uri" (by decide)⟩

/-- Witness for C10: a reply with a group-restricted read permission gets
`shared = true` computed against the client group while `groupid` is
removed. -/
theorem reply_shared_group_witness :
    getKey
      [("userid", Json.str "acct:u"), ("target_uri", Json.str "u"), ("text", Json.str ""),
       ("tags", Json.arr []), ("references", Json.arr [Json.str "p"]),
       ("shared", Json.bool true),
       ("document", Json.obj [("document_uri_dicts", Json.arr []),
                              ("document_meta_dicts", Json.arr [])]),
       ("extra", Json.obj [])] "groupid" = none ∧
    getKey
      [("userid", Json.str "acct:u"), ("target_uri", Json.str "u"), ("text", Json.str ""),
       ("tags", Json.arr []), ("references", Json.arr [Json.str "p"]),
       ("shared", Json.bool true),
       ("document", Json.obj [("document_uri_dicts", Json.arr []),
                              ("document_meta_dicts", Json.arr [])]),
       ("extra", Json.obj [])] "shared" = some (Json.bool true) := by
  have h := reply_shared_group emptyDocClaims "acct:u"
    [("uri", Json.str "u"), ("group", Json.str "abc"),
     ("permissions", Json.obj [("read", Json.arr [Json.str "group:abc"])]),
     ("references", Json.arr [Json.str "p"])]
    [("userid", Json.str "acct:u"), ("target_uri", Json.str "u"), ("text", Json.str ""),
     ("tags", Json.arr []), ("references", Json.arr [Json.str "p"]),
     ("shared", Json.bool true),
     ("document", Json.obj [("document_uri_dicts", Json.arr []),
                            ("document_meta_dicts", Json.arr [])]),
     ("extra", Json.obj [])] [Json.str "p"] rfl rfl (by decide)
  refine ⟨h.1, ?_⟩
  obtain ⟨g, b, hg, hb, hshared⟩ := h.2 [("read", Json.arr [Json.str "group:abc"])] rfl
  have hb2 : some (Json.bool b) = some (Json.bool true) := hshared.symm.trans rfl
  have hb3 : b = true := by simpa using hb2
  subst hb3
  exact hshared
